import Mathlib

/-!
Verification development for `main.go` (Drive link downloadability check)

Shallow embedding of the decision logic of `main.go`:

* `extractIdFromLink`: the two regular expressions and their precedence;
* `isDownloadable`, `checkFolder`: the evaluators, over an abstract provider;
* `checkDownloadableHandler`: the request handler.

Go strings are embedded as Lean `String`s; every string function works on the
character list of its argument.  The request strings come out of a JSON decoder
and are therefore valid UTF-8, and all characters the patterns look at are
ASCII, so matching on characters and matching on bytes agree.

Effects are made explicit: the remote provider is a record of response
functions, and every function that can act returns, next to its result, the
list of the calls it made (`Event`).
-/

namespace Go3

/-! ## Strings -/

/-- The Go `strings.HasPrefix(s, pre)`. -/
def hasPrefix (s pre : String) : Bool :=
  pre.toList.isPrefixOf s.toList

/-- The `strings.Contains` test on character lists: some suffix of `s` starts with `sub`. -/
def containsChars (sub : List Char) : List Char → Bool
  | [] => sub.isPrefixOf []
  | c :: cs => sub.isPrefixOf (c :: cs) || containsChars sub cs

/-- The Go `strings.Contains(s, sub)`. -/
def stringsContains (s sub : String) : Bool :=
  containsChars sub.toList s.toList

/-! ## The regular expressions of `extractIdFromLink`

Both patterns have the shape `lit([a-zA-Z0-9-_]+)`: a literal followed by one
capture group holding a greedy, non-empty run of identifier characters.  In the
class `[a-zA-Z0-9-_]` the ranges are `a-z`, `A-Z`, `0-9`; the `-` after `0-9`
and the `_` are single characters. -/

/-- The character class `[a-zA-Z0-9-_]`. -/
def isIdChar (c : Char) : Bool :=
  (decide ('a' ≤ c) && decide (c ≤ 'z')) ||
  (decide ('A' ≤ c) && decide (c ≤ 'Z')) ||
  (decide ('0' ≤ c) && decide (c ≤ '9')) ||
  c == '-' || c == '_'

/-- A compiled pattern `lit([a-zA-Z0-9-_]+)`, given by its literal part. -/
structure Regexp where
  lit : List Char

/-- The pattern `/d/([a-zA-Z0-9-_]+)`. -/
def fileIdRegex : Regexp := ⟨"/d/".toList⟩

/-- The pattern `/folders/([a-zA-Z0-9-_]+)`. -/
def folderIdRegex : Regexp := ⟨"/folders/".toList⟩

/-- Anchored match of `lit([a-zA-Z0-9-_]+)` at the start of `s`: the literal must be a
prefix, the group takes the longest run of identifier characters after it and must
be non-empty.  The result is the list `[whole match, group 1]`, empty on failure. -/
def Regexp.matchAt (re : Regexp) (s : List Char) : List (List Char) :=
  if re.lit.isPrefixOf s then
    let run := (s.drop re.lit.length).takeWhile isIdChar
    if run.isEmpty then [] else [re.lit ++ run, run]
  else []

/-- Leftmost match on a character list: try every start position from left to right. -/
def Regexp.findChars (re : Regexp) : List Char → List (List Char)
  | [] => re.matchAt []
  | c :: cs =>
    match re.matchAt (c :: cs) with
    | [] => re.findChars cs
    | m => m

/-- The Go `re.FindStringSubmatch(s)`: the leftmost match with its submatch, `nil` (the
empty slice) when the pattern matches nowhere. -/
def Regexp.FindStringSubmatch (re : Regexp) (s : String) : List String :=
  (re.findChars s.toList).map String.mk

/-- Indexing a Go `[]string` at a position known to be in range. -/
def index (xs : List String) (i : Nat) : String := xs.getD i ""

/-- The function `extractIdFromLink` of `main.go`. -/
def extractIdFromLink (link : String) : String :=
  let fileIdMatch := fileIdRegex.FindStringSubmatch link
  if fileIdMatch.length > 1 then index fileIdMatch 1
  else
    let folderIdMatch := folderIdRegex.FindStringSubmatch link
    if folderIdMatch.length > 1 then index folderIdMatch 1
    else ""

/-! ## The content-type table -/

/-- The package variable `mimeTypes`. -/
def mimeTypes : List (String × String) :=
  [("pdf", "application/pdf"), ("image", "image/"), ("video", "video/")]

/-- The Go map read `mimeTypes[k]`: the stored value, the zero value `""` for a missing key. -/
def mimeTypesAt (k : String) : String := (mimeTypes.lookup k).getD ""

/-- The Go two-valued map read `_, ok := mimeTypes[k]`. -/
def mimeTypesOk (k : String) : Bool := (mimeTypes.lookup k).isSome

/-! ## The provider -/

/-- A Go `error` value; `Error()` is its message. -/
structure GoError where
  Error : String
  deriving DecidableEq, Repr

/-- The part of `drive.File` the program reads. -/
structure File where
  Id : String
  MimeType : String
  deriving DecidableEq, Repr

/-- The remote provider as seen by the program: the outcome of `drive.NewService`, of
`srv.Files.Get(fileId).Fields("mimeType").Do()` and of
`srv.Files.List().Q(q).Fields("files(id, mimeType)").Do()`. -/
structure Provider where
  newService : Except GoError Unit
  filesGet : String → Except GoError File
  filesList : String → Except GoError (List File)

/-- Calls observed during one run. -/
inductive Event where
  | extractIdFromLink (link : String)
  | isDownloadable (fileId fileType : String)
  | checkFolder (folderId fileType : String)
  | filesGet (fileId : String)
  | filesList (q : String)
  deriving DecidableEq, Repr

/-- The events that are requests to the remote provider. -/
def Event.isProviderCall : Event → Bool
  | .filesGet _ => true
  | .filesList _ => true
  | _ => false

/-! ## The evaluators -/

/-- The function `isDownloadable` of `main.go`: the pair `(bool, error)` it returns and
the provider requests it made. -/
def isDownloadable (P : Provider) (fileId fileType : String) :
    (Bool × Option GoError) × List Event :=
  match P.newService with
  | .error err => ((false, some err), [])
  | .ok _ =>
    match P.filesGet fileId with
    | .error err => ((false, some err), [.filesGet fileId])
    | .ok file =>
      if fileType = "pdf" then
        ((decide (file.MimeType = mimeTypesAt "pdf"), none), [.filesGet fileId])
      else if fileType = "image" then
        ((hasPrefix file.MimeType (mimeTypesAt "image"), none), [.filesGet fileId])
      else if fileType = "video" then
        ((hasPrefix file.MimeType (mimeTypesAt "video"), none), [.filesGet fileId])
      else
        ((false, none), [.filesGet fileId])

/-- The `for _, file := range files.Files` loop of `checkFolder`: `true` when some
iteration executes `return true, nil`, `false` when the loop runs to its end. -/
def checkFolderLoop (fileType : String) : List File → Bool
  | [] => false
  | file :: rest =>
    if fileType = "pdf" then
      if file.MimeType = mimeTypesAt "pdf" then true else checkFolderLoop fileType rest
    else if fileType = "image" then
      if hasPrefix file.MimeType (mimeTypesAt "image") then true
      else checkFolderLoop fileType rest
    else if fileType = "video" then
      if hasPrefix file.MimeType (mimeTypesAt "video") then true
      else checkFolderLoop fileType rest
    else checkFolderLoop fileType rest

/-- The query string `fmt.Sprintf("'%s' in parents", folderId)`. -/
def parentsQuery (folderId : String) : String :=
  "'" ++ folderId ++ "' in parents"

/-- The function `checkFolder` of `main.go`: the pair `(bool, error)` it returns and the
provider requests it made. -/
def checkFolder (P : Provider) (folderId fileType : String) :
    (Bool × Option GoError) × List Event :=
  match P.newService with
  | .error err => ((false, some err), [])
  | .ok _ =>
    match P.filesList (parentsQuery folderId) with
    | .error err => ((false, some err), [.filesList (parentsQuery folderId)])
    | .ok files =>
      if files.length = 0 then ((false, none), [.filesList (parentsQuery folderId)])
      else ((checkFolderLoop fileType files, none), [.filesList (parentsQuery folderId)])

/-! ## The handler -/

/-- The request body after `ShouldBindJSON`. -/
structure Request where
  Link : String
  Typ : String
  deriving DecidableEq, Repr

/-- A response written with `c.JSON(status, gin.H{key: value})`. -/
structure Response where
  status : Nat
  key : String
  value : String
  deriving DecidableEq, Repr

/-- The constant `http.StatusOK`. -/
def StatusOK : Nat := 200
/-- The constant `http.StatusBadRequest`. -/
def StatusBadRequest : Nat := 400
/-- The constant `http.StatusInternalServerError`. -/
def StatusInternalServerError : Nat := 500

/-- The function `checkDownloadableHandler` of `main.go`.  `body` is the outcome of
`c.ShouldBindJSON(&req)`: `none` when binding fails.  The result is the response
written and the calls made, in order. -/
def checkDownloadableHandler (P : Provider) (body : Option Request) :
    Response × List Event :=
  match body with
  | none => (⟨StatusBadRequest, "error", "Invalid parameters"⟩, [])
  | some req =>
    if !mimeTypesOk req.Typ then
      (⟨StatusBadRequest, "error", "Invalid type"⟩, [])
    else
      let id := extractIdFromLink req.Link
      if id = "" then
        (⟨StatusBadRequest, "error", "Invalid link format"⟩, [.extractIdFromLink req.Link])
      else
        let r :=
          if stringsContains req.Link "/folders/" then
            let out := checkFolder P id req.Typ
            (out.1, Event.extractIdFromLink req.Link :: Event.checkFolder id req.Typ :: out.2)
          else
            let out := isDownloadable P id req.Typ
            (out.1, Event.extractIdFromLink req.Link :: Event.isDownloadable id req.Typ :: out.2)
        match r.1.2 with
        | some err => (⟨StatusInternalServerError, "error", err.Error⟩, r.2)
        | none =>
          let result := if r.1.1 then "yes" else "no"
          (⟨StatusOK, "result", result⟩, r.2)

/-! ## Specification-side notions for the patterns -/

/-- The pattern of `re` matches somewhere in `s`: the literal occurs, followed by at
least one identifier character. -/
def Regexp.Occurs (re : Regexp) (s : List Char) : Prop :=
  ∃ p c r, s = p ++ re.lit ++ c :: r ∧ isIdChar c = true

/-- The identifier `id` is what `re` captures in `s`: `s` splits as
`p ++ lit ++ id ++ r` with `id` a non-empty run of identifier characters that
cannot be extended to the right, and no occurrence of the pattern starts before
the end of `p`. -/
def Regexp.Captures (re : Regexp) (s id : List Char) : Prop :=
  ∃ p r, s = p ++ re.lit ++ id ++ r ∧ id ≠ [] ∧ (∀ c ∈ id, isIdChar c = true) ∧
    (∀ c ∈ r.head?, isIdChar c = false) ∧
    (∀ p' c r', s = p' ++ re.lit ++ c :: r' → isIdChar c = true → p.length ≤ p'.length)

/-! ## Parts of the source functions, named for use in the lemmas -/

/-- The tail of the handler, from `if err != nil` on: the response written for an
evaluator result. -/
def respond (r : Bool × Option GoError) : Response :=
  match r.2 with
  | some err => ⟨StatusInternalServerError, "error", err.Error⟩
  | none => ⟨StatusOK, "result", if r.1 then "yes" else "no"⟩

/-- The test the `switch fileType` of both evaluators applies to a content type; the
`default` branch (no `case` in `checkFolder`) gives `false`. -/
def switchTest (fileType ct : String) : Bool :=
  if fileType = "pdf" then decide (ct = mimeTypesAt "pdf")
  else if fileType = "image" then hasPrefix ct (mimeTypesAt "image")
  else if fileType = "video" then hasPrefix ct (mimeTypesAt "video")
  else false

/-! ## Specification-side notions for the categories -/

/-- The category is one of the three recognised ones. -/
def Recognised (category : String) : Prop :=
  category = "pdf" ∨ category = "image" ∨ category = "video"

/-- The content-type rule of a category in the words of the specification: for `pdf`
the content type equals `application/pdf`, for `image` it starts with `image/`, for
`video` it starts with `video/`. -/
def SatisfiesCategory (category ct : String) : Prop :=
  (category = "pdf" ∧ ct = "application/pdf") ∨
  (category = "image" ∧ ∃ sub : String, ct = "image/" ++ sub) ∨
  (category = "video" ∧ ∃ sub : String, ct = "video/" ++ sub)

/-- The provider requests among the calls of a run. -/
def providerCalls (log : List Event) : List Event :=
  log.filter Event.isProviderCall

/-! ## Sample providers and links -/

/-- A link in which both patterns match: the file pattern captures `ABC`, the folder
pattern captures `XYZ`. -/
def mixedLink : String := "https://drive.google.com/file/d/ABC/folders/XYZ"

/-- A provider that is up: the file `ABC` is a PDF, the folder `XYZ` holds an image and
a video, every other folder is empty and no other file exists. -/
def sampleProvider : Provider where
  newService := .ok ()
  filesGet := fun fileId =>
    if fileId = "ABC" then .ok ⟨"ABC", "application/pdf"⟩ else .error ⟨"File not found: " ++ fileId⟩
  filesList := fun q =>
    if q = "'XYZ' in parents" then .ok [⟨"1", "image/png"⟩, ⟨"2", "video/mp4"⟩] else .ok []

/-- A provider that is up and answers every request with the error `quota exceeded`. -/
def failingProvider : Provider where
  newService := .ok ()
  filesGet := fun _ => .error ⟨"quota exceeded"⟩
  filesList := fun _ => .error ⟨"quota exceeded"⟩

/-- A provider that is up and lists `files` for every folder. -/
def listingProvider (files : List File) : Provider where
  newService := .ok ()
  filesGet := fun fileId => .error ⟨"File not found: " ++ fileId⟩
  filesList := fun _ => .ok files

/-- A provider that is up and reports the content type `ct` for every file. -/
def typedProvider (ct : String) : Provider where
  newService := .ok ()
  filesGet := fun fileId => .ok ⟨fileId, ct⟩
  filesList := fun _ => .ok []

/-! ## Lemmas on the pattern matcher -/

theorem takeWhile_run (id r : List Char) (hid : ∀ c ∈ id, isIdChar c = true)
    (hr : ∀ c ∈ r.head?, isIdChar c = false) :
    (id ++ r).takeWhile isIdChar = id := by
  induction id with
  | nil =>
    cases r with
    | nil => rfl
    | cons a t =>
      have := hr a (by simp)
      simp [List.takeWhile, this]
  | cons a t ih =>
    have ha := hid a (by simp)
    have ih2 := ih (fun c hc => hid c (by simp [hc]))
    simp [List.takeWhile_cons, ha, ih2]

theorem matchAt_of_split (re : Regexp) (id r : List Char) (hne : id ≠ [])
    (hid : ∀ c ∈ id, isIdChar c = true) (hr : ∀ c ∈ r.head?, isIdChar c = false) :
    re.matchAt (re.lit ++ id ++ r) = [re.lit ++ id, id] := by
  have hp : re.lit.isPrefixOf (re.lit ++ id ++ r) = true := by
    rw [List.isPrefixOf_iff_prefix, List.append_assoc]
    exact List.prefix_append _ _
  have hd : (re.lit ++ id ++ r).drop re.lit.length = id ++ r := by
    rw [List.append_assoc, List.drop_left]
  unfold Regexp.matchAt
  simp only [hp, if_true, hd, takeWhile_run id r hid hr]
  cases id with
  | nil => exact absurd rfl hne
  | cons a t => simp

theorem matchAt_split (re : Regexp) (s : List Char) (h : re.matchAt s ≠ []) :
    ∃ id r, s = re.lit ++ id ++ r ∧ id ≠ [] ∧ (∀ c ∈ id, isIdChar c = true) ∧
      (∀ c ∈ r.head?, isIdChar c = false) := by
  unfold Regexp.matchAt at h
  by_cases hp : re.lit.isPrefixOf s = true
  · rw [if_pos hp] at h
    rw [List.isPrefixOf_iff_prefix] at hp
    obtain ⟨t, rfl⟩ := hp
    rw [List.drop_left] at h
    refine ⟨t.takeWhile isIdChar, t.dropWhile isIdChar, ?_, ?_, ?_, ?_⟩
    · rw [List.append_assoc, List.takeWhile_append_dropWhile]
    · intro h0
      simp [h0] at h
    · intro c hc
      exact (List.mem_takeWhile_imp hc)
    · intro c hc
      cases hdw : t.dropWhile isIdChar with
      | nil => simp [hdw] at hc
      | cons a u =>
        rw [hdw] at hc
        simp at hc
        subst hc
        have := List.head_dropWhile_not isIdChar t (by simp [hdw])
        simpa [hdw] using this
  · rw [if_neg hp] at h
    exact absurd rfl h

theorem matchAt_eq_nil_iff (re : Regexp) (s : List Char) :
    re.matchAt s = [] ↔ ¬ ∃ c r, s = re.lit ++ c :: r ∧ isIdChar c = true := by
  constructor
  · rintro h ⟨c, r, rfl, hc⟩
    have hp : re.lit.isPrefixOf (re.lit ++ c :: r) = true := by
      rw [List.isPrefixOf_iff_prefix]
      exact List.prefix_append _ _
    unfold Regexp.matchAt at h
    rw [if_pos hp, List.drop_left] at h
    simp [List.takeWhile_cons, hc] at h
  · intro h
    by_contra hne
    obtain ⟨id, r, hs, hid, hall, -⟩ := matchAt_split re s hne
    cases id with
    | nil => exact hid rfl
    | cons a t =>
      exact h ⟨a, t ++ r, by simp [hs], hall a (by simp)⟩

theorem findChars_cases (re : Regexp) (s : List Char) :
    (re.findChars s = [] ∧ ¬ re.Occurs s) ∨
      (∃ id, re.Captures s id ∧ re.findChars s = [re.lit ++ id, id]) := by
  induction s with
  | nil =>
    left
    constructor
    · rw [Regexp.findChars, matchAt_eq_nil_iff]
      rintro ⟨c, r, h, -⟩
      simp at h
    · rintro ⟨p, c, r, h, -⟩
      simp at h
  | cons a cs ih =>
    by_cases hm : re.matchAt (a :: cs) = []
    · have hf : re.findChars (a :: cs) = re.findChars cs := by
        rw [Regexp.findChars, hm]
      have hhere : ∀ p c r, a :: cs = p ++ re.lit ++ c :: r → isIdChar c = true →
          ∃ q, p = a :: q ∧ cs = q ++ re.lit ++ c :: r := by
        intro p c r h hc
        cases p with
        | nil =>
          exact absurd ⟨c, r, by simpa using h, hc⟩ ((matchAt_eq_nil_iff re _).mp hm)
        | cons b q =>
          simp only [List.cons_append, List.cons.injEq] at h
          exact ⟨q, by rw [h.1], by simpa using h.2⟩
      rcases ih with ⟨h0, hno⟩ | ⟨id, ⟨p, r, hs, hne, hall, hr, hleft⟩, hfc⟩
      · left
        refine ⟨by rw [hf, h0], ?_⟩
        rintro ⟨p, c, r, h, hc⟩
        obtain ⟨q, -, hq⟩ := hhere p c r h hc
        exact hno ⟨q, c, r, hq, hc⟩
      · right
        refine ⟨id, ⟨a :: p, r, by simp [hs], hne, hall, hr, ?_⟩, by rw [hf, hfc]⟩
        intro p' c r' h hc
        obtain ⟨q, rfl, hq⟩ := hhere p' c r' h hc
        have := hleft q c r' hq hc
        simpa using this
    · right
      obtain ⟨id, r, hs, hne, hall, hr⟩ := matchAt_split re _ hm
      have hmat := matchAt_of_split re id r hne hall hr
      rw [← hs] at hmat
      refine ⟨id, ⟨[], r, by simpa using hs, hne, hall, hr, ?_⟩, ?_⟩
      · intro p' c r' _ _
        simp
      · rw [Regexp.findChars, hmat]

theorem findChars_eq_nil_iff (re : Regexp) (s : List Char) :
    re.findChars s = [] ↔ ¬ re.Occurs s := by
  rcases findChars_cases re s with ⟨h0, hno⟩ | ⟨id, ⟨p, r, hs, hne, hall, -, -⟩, hfc⟩
  · simp [h0, hno]
  · have hocc : re.Occurs s := by
      cases id with
      | nil => exact absurd rfl hne
      | cons a t => exact ⟨p, a, t ++ r, by simp [hs], hall a (by simp)⟩
    simp [hfc, hocc]

theorem findChars_of_occurs (re : Regexp) (s : List Char) (h : re.Occurs s) :
    ∃ id, re.Captures s id ∧ re.findChars s = [re.lit ++ id, id] := by
  rcases findChars_cases re s with ⟨-, hno⟩ | h2
  · exact absurd h hno
  · exact h2

/-! ## Lemmas on `extractIdFromLink` -/

theorem extract_of_file (link : String) (id : List Char)
    (h : fileIdRegex.findChars link.toList = [fileIdRegex.lit ++ id, id]) :
    extractIdFromLink link = String.mk id := by
  simp only [String.toList] at h
  simp [extractIdFromLink, Regexp.FindStringSubmatch, h, index]

theorem extract_of_folder (link : String) (id : List Char)
    (h0 : fileIdRegex.findChars link.toList = [])
    (h : folderIdRegex.findChars link.toList = [folderIdRegex.lit ++ id, id]) :
    extractIdFromLink link = String.mk id := by
  simp only [String.toList] at h0 h
  simp [extractIdFromLink, Regexp.FindStringSubmatch, h0, h, index]

theorem extract_of_none (link : String)
    (h0 : fileIdRegex.findChars link.toList = [])
    (h1 : folderIdRegex.findChars link.toList = []) :
    extractIdFromLink link = "" := by
  simp only [String.toList] at h0 h1
  simp [extractIdFromLink, Regexp.FindStringSubmatch, h0, h1]

theorem mimeTypesOk_iff (ty : String) :
    mimeTypesOk ty = true ↔ ty = "pdf" ∨ ty = "image" ∨ ty = "video" := by
  unfold mimeTypesOk mimeTypes
  by_cases h1 : ty = "pdf"
  · subst h1; simp [List.lookup]
  · by_cases h2 : ty = "image"
    · subst h2; simp [List.lookup]
    · by_cases h3 : ty = "video"
      · subst h3; simp [List.lookup]
      · have e1 : (ty == "pdf") = false := by simpa using h1
        have e2 : (ty == "image") = false := by simpa using h2
        have e3 : (ty == "video") = false := by simpa using h3
        simp [List.lookup, e1, e2, e3, h1, h2, h3]

/-! ## Lemmas on the handler -/

theorem handler_folder (P : Provider) (link ty : String) (hty : mimeTypesOk ty = true)
    (hid : extractIdFromLink link ≠ "") (hc : stringsContains link "/folders/" = true) :
    checkDownloadableHandler P (some ⟨link, ty⟩) =
      (respond (checkFolder P (extractIdFromLink link) ty).1,
        Event.extractIdFromLink link :: Event.checkFolder (extractIdFromLink link) ty ::
          (checkFolder P (extractIdFromLink link) ty).2) := by
  unfold checkDownloadableHandler respond
  simp only [hty, hid, hc, Bool.not_true, if_false, if_true]
  generalize checkFolder P (extractIdFromLink link) ty = out
  rcases out with ⟨⟨b, e⟩, l⟩
  cases e <;> simp

theorem handler_file (P : Provider) (link ty : String) (hty : mimeTypesOk ty = true)
    (hid : extractIdFromLink link ≠ "") (hc : stringsContains link "/folders/" = false) :
    checkDownloadableHandler P (some ⟨link, ty⟩) =
      (respond (isDownloadable P (extractIdFromLink link) ty).1,
        Event.extractIdFromLink link :: Event.isDownloadable (extractIdFromLink link) ty ::
          (isDownloadable P (extractIdFromLink link) ty).2) := by
  unfold checkDownloadableHandler respond
  simp only [hty, hid, hc, Bool.not_true, if_false, if_true]
  generalize isDownloadable P (extractIdFromLink link) ty = out
  rcases out with ⟨⟨b, e⟩, l⟩
  cases e <;> simp

theorem handler_bad_link (P : Provider) (link ty : String) (hty : mimeTypesOk ty = true)
    (hid : extractIdFromLink link = "") :
    checkDownloadableHandler P (some ⟨link, ty⟩) =
      (⟨StatusBadRequest, "error", "Invalid link format"⟩, [Event.extractIdFromLink link]) := by
  unfold checkDownloadableHandler
  simp [hty, hid]

theorem handler_bad_type (P : Provider) (link ty : String) (hty : mimeTypesOk ty = false) :
    checkDownloadableHandler P (some ⟨link, ty⟩) =
      (⟨StatusBadRequest, "error", "Invalid type"⟩, []) := by
  unfold checkDownloadableHandler
  simp [hty]

/-! ## Lemmas on the category tests and the evaluators -/

theorem captures_unique (re : Regexp) (s id id' : List Char)
    (h : re.Captures s id) (h' : re.Captures s id') : id = id' := by
  obtain ⟨p, r, hs, hne, hall, hr, hleft⟩ := h
  obtain ⟨p', r', hs', hne', hall', hr', hleft'⟩ := h'
  have hlen : p.length = p'.length := by
    apply Nat.le_antisymm
    · cases id' with
      | nil => exact absurd rfl hne'
      | cons a t => exact hleft p' a (t ++ r') (by simp [hs']) (hall' a (by simp))
    · cases id with
      | nil => exact absurd rfl hne
      | cons a t => exact hleft' p a (t ++ r) (by simp [hs]) (hall a (by simp))
  have e : p ++ (re.lit ++ (id ++ r)) = p' ++ (re.lit ++ (id' ++ r')) := by
    simpa [List.append_assoc] using hs.symm.trans hs'
  have e2 := (List.append_inj e hlen).2
  have e3 : id ++ r = id' ++ r' := List.append_cancel_left e2
  rw [← takeWhile_run id r hall hr, e3, takeWhile_run id' r' hall' hr']

theorem hasPrefix_iff (s pre : String) :
    hasPrefix s pre = true ↔ ∃ sub : String, s = pre ++ sub := by
  unfold hasPrefix
  rw [List.isPrefixOf_iff_prefix]
  constructor
  · rintro ⟨t, ht⟩
    refine ⟨String.mk t, ?_⟩
    apply String.ext
    simpa [String.toList] using ht.symm
  · rintro ⟨sub, rfl⟩
    exact ⟨sub.data, by simp [String.toList]⟩

theorem mimeTypesAt_pdf : mimeTypesAt "pdf" = "application/pdf" := by decide

theorem mimeTypesAt_image : mimeTypesAt "image" = "image/" := by decide

theorem mimeTypesAt_video : mimeTypesAt "video" = "video/" := by decide

theorem switchTest_iff (ty ct : String) :
    switchTest ty ct = true ↔ SatisfiesCategory ty ct := by
  unfold switchTest SatisfiesCategory
  rw [mimeTypesAt_pdf, mimeTypesAt_image, mimeTypesAt_video]
  by_cases h1 : ty = "pdf"
  · subst h1
    simp
  · by_cases h2 : ty = "image"
    · subst h2
      simp [hasPrefix_iff]
    · by_cases h3 : ty = "video"
      · subst h3
        simp [hasPrefix_iff]
      · simp [h1, h2, h3]

theorem checkFolderLoop_eq_any (ty : String) (files : List File) :
    checkFolderLoop ty files = files.any (fun f => switchTest ty f.MimeType) := by
  induction files with
  | nil => rfl
  | cons f rest ih =>
    unfold checkFolderLoop
    rw [ih, List.any_cons]
    unfold switchTest
    by_cases h1 : ty = "pdf"
    · by_cases hm : f.MimeType = mimeTypesAt "pdf" <;> simp [h1, hm]
    · by_cases h2 : ty = "image"
      · cases hm : hasPrefix f.MimeType (mimeTypesAt "image") <;> simp [h2, hm]
      · by_cases h3 : ty = "video"
        · cases hm : hasPrefix f.MimeType (mimeTypesAt "video") <;> simp [h3, hm]
        · simp [h1, h2, h3]

theorem checkFolderLoop_iff (ty : String) (files : List File) :
    checkFolderLoop ty files = true ↔ ∃ f ∈ files, SatisfiesCategory ty f.MimeType := by
  rw [checkFolderLoop_eq_any, List.any_eq_true]
  simp only [switchTest_iff]

theorem isDownloadable_ok (P : Provider) (fileId ty : String) (u : Unit) (file : File)
    (hs : P.newService = .ok u) (hg : P.filesGet fileId = .ok file) :
    isDownloadable P fileId ty =
      ((switchTest ty file.MimeType, none), [Event.filesGet fileId]) := by
  unfold isDownloadable switchTest
  rw [hs, hg]
  by_cases h1 : ty = "pdf"
  · simp [h1]
  · by_cases h2 : ty = "image"
    · simp [h2]
    · by_cases h3 : ty = "video"
      · simp [h3]
      · simp [h1, h2, h3]

theorem checkFolder_ok (P : Provider) (folderId ty : String) (u : Unit) (files : List File)
    (hs : P.newService = .ok u) (hl : P.filesList (parentsQuery folderId) = .ok files) :
    checkFolder P folderId ty =
      ((checkFolderLoop ty files, none), [Event.filesList (parentsQuery folderId)]) := by
  unfold checkFolder
  rw [hs, hl]
  cases files with
  | nil => simp [checkFolderLoop]
  | cons f rest => simp

theorem captures_of_findChars (re : Regexp) (s id : List Char)
    (h : re.findChars s = [re.lit ++ id, id]) : re.Captures s id := by
  rcases findChars_cases re s with ⟨h0, -⟩ | ⟨id', hc, hf⟩
  · rw [h0] at h
    exact absurd h (by simp)
  · rw [hf] at h
    have : id' = id := by simpa using h
    exact this ▸ hc

theorem occurs_of_captures (re : Regexp) (s id : List Char) (h : re.Captures s id) :
    re.Occurs s := by
  obtain ⟨p, r, hs, hne, hall, -, -⟩ := h
  cases id with
  | nil => exact absurd rfl hne
  | cons a t => exact ⟨p, a, t ++ r, by simp [hs], hall a (by simp)⟩

theorem findChars_of_captures (re : Regexp) (s id : List Char) (h : re.Captures s id) :
    re.findChars s = [re.lit ++ id, id] := by
  obtain ⟨id', hc, hf⟩ := findChars_of_occurs re s (occurs_of_captures re s id h)
  rw [hf, captures_unique re s id id' h hc]

theorem isDownloadable_error (P : Provider) (fileId ty : String) (u : Unit) (e : GoError)
    (hs : P.newService = .ok u) (hg : P.filesGet fileId = .error e) :
    isDownloadable P fileId ty = ((false, some e), [Event.filesGet fileId]) := by
  unfold isDownloadable
  rw [hs, hg]

theorem checkFolder_error (P : Provider) (folderId ty : String) (u : Unit) (e : GoError)
    (hs : P.newService = .ok u) (hl : P.filesList (parentsQuery folderId) = .error e) :
    checkFolder P folderId ty = ((false, some e), [Event.filesList (parentsQuery folderId)]) := by
  unfold checkFolder
  rw [hs, hl]

theorem isDownloadable_log (P : Provider) (fileId ty : String) :
    ((isDownloadable P fileId ty).2 = [] ∧ ∃ e, P.newService = .error e) ∨
      ((isDownloadable P fileId ty).2 = [Event.filesGet fileId] ∧ ∃ u, P.newService = .ok u) := by
  cases hs : P.newService with
  | error e =>
    left
    exact ⟨by unfold isDownloadable; rw [hs], e, rfl⟩
  | ok u =>
    right
    refine ⟨?_, u, rfl⟩
    cases hg : P.filesGet fileId with
    | error e => rw [isDownloadable_error P fileId ty u e hs hg]
    | ok file => rw [isDownloadable_ok P fileId ty u file hs hg]

theorem checkFolder_log (P : Provider) (folderId ty : String) :
    ((checkFolder P folderId ty).2 = [] ∧ ∃ e, P.newService = .error e) ∨
      ((checkFolder P folderId ty).2 = [Event.filesList (parentsQuery folderId)] ∧
        ∃ u, P.newService = .ok u) := by
  cases hs : P.newService with
  | error e =>
    left
    exact ⟨by unfold checkFolder; rw [hs], e, rfl⟩
  | ok u =>
    right
    refine ⟨?_, u, rfl⟩
    cases hl : P.filesList (parentsQuery folderId) with
    | error e => rw [checkFolder_error P folderId ty u e hs hl]
    | ok files => rw [checkFolder_ok P folderId ty u files hs hl]

theorem handler_cases (P : Provider) (link ty : String) :
    (mimeTypesOk ty = false ∧
      checkDownloadableHandler P (some ⟨link, ty⟩) =
        (⟨StatusBadRequest, "error", "Invalid type"⟩, [])) ∨
    (mimeTypesOk ty = true ∧ extractIdFromLink link = "" ∧
      checkDownloadableHandler P (some ⟨link, ty⟩) =
        (⟨StatusBadRequest, "error", "Invalid link format"⟩, [Event.extractIdFromLink link])) ∨
    (mimeTypesOk ty = true ∧ extractIdFromLink link ≠ "" ∧
      stringsContains link "/folders/" = true ∧
      checkDownloadableHandler P (some ⟨link, ty⟩) =
        (respond (checkFolder P (extractIdFromLink link) ty).1,
          Event.extractIdFromLink link :: Event.checkFolder (extractIdFromLink link) ty ::
            (checkFolder P (extractIdFromLink link) ty).2)) ∨
    (mimeTypesOk ty = true ∧ extractIdFromLink link ≠ "" ∧
      stringsContains link "/folders/" = false ∧
      checkDownloadableHandler P (some ⟨link, ty⟩) =
        (respond (isDownloadable P (extractIdFromLink link) ty).1,
          Event.extractIdFromLink link :: Event.isDownloadable (extractIdFromLink link) ty ::
            (isDownloadable P (extractIdFromLink link) ty).2)) := by
  cases hty : mimeTypesOk ty with
  | false => exact Or.inl ⟨rfl, handler_bad_type P link ty hty⟩
  | true =>
    by_cases hid : extractIdFromLink link = ""
    · exact Or.inr (Or.inl ⟨rfl, hid, handler_bad_link P link ty hty hid⟩)
    · cases hc : stringsContains link "/folders/" with
      | true => exact Or.inr (Or.inr (Or.inl ⟨rfl, hid, rfl, handler_folder P link ty hty hid hc⟩))
      | false => exact Or.inr (Or.inr (Or.inr ⟨rfl, hid, rfl, handler_file P link ty hty hid hc⟩))

theorem respond_ne_bad_request (r : Bool × Option GoError) (k v : String) :
    respond r ≠ ⟨StatusBadRequest, k, v⟩ := by
  rcases r with ⟨b, e⟩
  cases e with
  | none =>
    intro h
    have := congrArg Response.status h
    simp [respond, StatusOK, StatusBadRequest] at this
  | some err =>
    intro h
    have := congrArg Response.status h
    simp [respond, StatusInternalServerError, StatusBadRequest] at this

theorem filesGet_mem_handler (P : Provider) (link ty fileId : String)
    (h : Event.filesGet fileId ∈ (checkDownloadableHandler P (some ⟨link, ty⟩)).2) :
    fileId = extractIdFromLink link ∧ (∃ u, P.newService = .ok u) ∧
      checkDownloadableHandler P (some ⟨link, ty⟩) =
        (respond (isDownloadable P fileId ty).1,
          [Event.extractIdFromLink link, Event.isDownloadable fileId ty,
            Event.filesGet fileId]) := by
  rcases handler_cases P link ty with ⟨-, ho⟩ | ⟨-, -, ho⟩ | ⟨-, -, -, ho⟩ | ⟨-, -, -, ho⟩
  · rw [ho] at h
    simp at h
  · rw [ho] at h
    simp at h
  · rw [ho] at h
    rcases checkFolder_log P (extractIdFromLink link) ty with ⟨hl, -⟩ | ⟨hl, -⟩ <;>
      · rw [hl] at h
        simp at h
  · rw [ho] at h
    rcases isDownloadable_log P (extractIdFromLink link) ty with ⟨hl, -⟩ | ⟨hl, hu⟩
    · rw [hl] at h
      simp at h
    · rw [hl] at h
      have hid : fileId = extractIdFromLink link := by simpa using h
      subst hid
      exact ⟨rfl, hu, by rw [ho, hl]⟩

theorem filesList_mem_handler (P : Provider) (link ty q : String)
    (h : Event.filesList q ∈ (checkDownloadableHandler P (some ⟨link, ty⟩)).2) :
    q = parentsQuery (extractIdFromLink link) ∧ (∃ u, P.newService = .ok u) ∧
      checkDownloadableHandler P (some ⟨link, ty⟩) =
        (respond (checkFolder P (extractIdFromLink link) ty).1,
          [Event.extractIdFromLink link, Event.checkFolder (extractIdFromLink link) ty,
            Event.filesList q]) := by
  rcases handler_cases P link ty with ⟨-, ho⟩ | ⟨-, -, ho⟩ | ⟨-, -, -, ho⟩ | ⟨-, -, -, ho⟩
  · rw [ho] at h
    simp at h
  · rw [ho] at h
    simp at h
  · rw [ho] at h
    rcases checkFolder_log P (extractIdFromLink link) ty with ⟨hl, -⟩ | ⟨hl, hu⟩
    · rw [hl] at h
      simp at h
    · rw [hl] at h
      have hq : q = parentsQuery (extractIdFromLink link) := by simpa using h
      subst hq
      exact ⟨rfl, hu, by rw [ho, hl]⟩
  · rw [ho] at h
    rcases isDownloadable_log P (extractIdFromLink link) ty with ⟨hl, -⟩ | ⟨hl, -⟩ <;>
      · rw [hl] at h
        simp at h

/-! ## The claims -/

/-- C1 (defect of the handler): in `mixedLink` both patterns match, the file pattern
captures `ABC`, the folder pattern captures `XYZ`, and `extractIdFromLink` returns the
file id `ABC`; yet for every provider the handler calls `checkFolder` on that file id,
lists the children of `ABC`, and never calls `isDownloadable`.  With `sampleProvider`,
where `ABC` is a PDF, the answer is `no` although `isDownloadable` says `true`. -/
theorem handler_sends_file_id_to_checkFolder (P : Provider) :
    fileIdRegex.FindStringSubmatch mixedLink = ["/d/ABC", "ABC"] ∧
    folderIdRegex.FindStringSubmatch mixedLink = ["/folders/XYZ", "XYZ"] ∧
    extractIdFromLink mixedLink = "ABC" ∧
    checkDownloadableHandler P (some ⟨mixedLink, "pdf"⟩) =
      (respond (checkFolder P "ABC" "pdf").1,
        Event.extractIdFromLink mixedLink :: Event.checkFolder "ABC" "pdf" ::
          (checkFolder P "ABC" "pdf").2) ∧
    checkDownloadableHandler sampleProvider (some ⟨mixedLink, "pdf"⟩) =
      (⟨200, "result", "no"⟩,
        [Event.extractIdFromLink mixedLink, Event.checkFolder "ABC" "pdf",
          Event.filesList "'ABC' in parents"]) ∧
    (isDownloadable sampleProvider "ABC" "pdf").1 = (true, none) := by
  have hid : extractIdFromLink mixedLink = "ABC" := by decide
  refine ⟨by decide, by decide, hid, ?_, by decide, by decide⟩
  have h := handler_folder P mixedLink "pdf" (by decide) (by decide) (by decide)
  rw [hid] at h
  exact h

/-- C2: when the file pattern captures `fid` in the link and the folder pattern captures
`gid` in it, wherever the two occurrences lie, `extractIdFromLink` returns `fid`. -/
theorem extractIdFromLink_file_precedence (link : String) (fid gid : List Char)
    (hfile : fileIdRegex.Captures link.toList fid)
    (hfolder : folderIdRegex.Captures link.toList gid) :
    extractIdFromLink link = String.mk fid ∧
      fileIdRegex.FindStringSubmatch link = [String.mk ("/d/".toList ++ fid), String.mk fid] ∧
      folderIdRegex.FindStringSubmatch link =
        [String.mk ("/folders/".toList ++ gid), String.mk gid] := by
  have h1 := findChars_of_captures _ _ _ hfile
  have h2 := findChars_of_captures _ _ _ hfolder
  refine ⟨extract_of_file link fid h1, ?_, ?_⟩
  · unfold Regexp.FindStringSubmatch
    rw [h1]
    rfl
  · unfold Regexp.FindStringSubmatch
    rw [h2]
    rfl

/-- Witness for C2: in `/folders/XYZ/d/ABC` the folder occurrence comes first and the
file id `ABC` is returned. -/
theorem extractIdFromLink_file_precedence_witness :
    fileIdRegex.Captures "/folders/XYZ/d/ABC".toList "ABC".toList ∧
    folderIdRegex.Captures "/folders/XYZ/d/ABC".toList "XYZ".toList ∧
    extractIdFromLink "/folders/XYZ/d/ABC" = "ABC" :=
  ⟨captures_of_findChars _ _ _ (by decide), captures_of_findChars _ _ _ (by decide),
    (extractIdFromLink_file_precedence "/folders/XYZ/d/ABC" "ABC".toList "XYZ".toList
      (captures_of_findChars _ _ _ (by decide)) (captures_of_findChars _ _ _ (by decide))).1⟩

/-- C3: for a recognised category, when the service is up and the listing of the folder
succeeds with `files`, `checkFolder` returns `(true, nil)` exactly when some child of
`files` satisfies the rule of the category and `(false, nil)` exactly when none does;
any provider listing a permutation of `files` gets the same result. -/
theorem checkFolder_true_iff_some_child (P : Provider) (folderId ty : String)
    (files : List File) (u : Unit) (hty : Recognised ty)
    (hs : P.newService = .ok u)
    (hl : P.filesList (parentsQuery folderId) = .ok files) :
    ((checkFolder P folderId ty).1 = (true, none) ↔
        ∃ f ∈ files, SatisfiesCategory ty f.MimeType) ∧
    ((checkFolder P folderId ty).1 = (false, none) ↔
        ¬ ∃ f ∈ files, SatisfiesCategory ty f.MimeType) ∧
    (∀ (P' : Provider) (files' : List File), P'.newService = .ok u →
        P'.filesList (parentsQuery folderId) = .ok files' → files'.Perm files →
        (checkFolder P' folderId ty).1 = (checkFolder P folderId ty).1) := by
  have _ := hty
  rw [checkFolder_ok P folderId ty u files hs hl]
  refine ⟨?_, ?_, ?_⟩
  · rw [← checkFolderLoop_iff]
    simp
  · rw [← checkFolderLoop_iff]
    simp
  · intro P' files' hs' hl' hperm
    rw [checkFolder_ok P' folderId ty u files' hs' hl']
    have : checkFolderLoop ty files' = checkFolderLoop ty files := by
      rw [Bool.eq_iff_iff, checkFolderLoop_iff, checkFolderLoop_iff]
      constructor
      · rintro ⟨f, hf, hsat⟩
        exact ⟨f, hperm.mem_iff.mp hf, hsat⟩
      · rintro ⟨f, hf, hsat⟩
        exact ⟨f, hperm.mem_iff.mpr hf, hsat⟩
    simp [this]

/-- Witness for C3: the folder `XYZ` of `sampleProvider` lists an image and then a video;
for `video` the result is `(true, nil)`, and the second child satisfies the rule. -/
theorem checkFolder_true_iff_some_child_witness :
    Recognised "video" ∧ sampleProvider.newService = .ok () ∧
    sampleProvider.filesList (parentsQuery "XYZ") =
      .ok [⟨"1", "image/png"⟩, ⟨"2", "video/mp4"⟩] ∧
    ((checkFolder sampleProvider "XYZ" "video").1 = (true, none) ↔
      ∃ f ∈ [(⟨"1", "image/png"⟩ : File), ⟨"2", "video/mp4"⟩],
        SatisfiesCategory "video" f.MimeType) ∧
    (checkFolder sampleProvider "XYZ" "video").1 = (true, none) :=
  ⟨Or.inr (Or.inr rfl), rfl, rfl,
    (checkFolder_true_iff_some_child sampleProvider "XYZ" "video"
      [⟨"1", "image/png"⟩, ⟨"2", "video/mp4"⟩] () (Or.inr (Or.inr rfl)) rfl rfl).1,
    by decide⟩

/-- C4: when the service is up and the provider reports the content type `ct` for the
file, `isDownloadable` returns no error, and its boolean is `true` for `pdf` exactly
when `ct` equals `application/pdf`, for `image` exactly when `ct` starts with `image/`,
for `video` exactly when `ct` starts with `video/`. -/
theorem isDownloadable_true_iff (P : Provider) (fileId id' ct : String) (u : Unit)
    (hs : P.newService = .ok u) (hg : P.filesGet fileId = .ok ⟨id', ct⟩) :
    ((isDownloadable P fileId "pdf").1 = (decide (ct = "application/pdf"), none)) ∧
    ((isDownloadable P fileId "pdf").1.1 = true ↔ ct = "application/pdf") ∧
    ((isDownloadable P fileId "image").1.1 = true ↔ ∃ sub : String, ct = "image/" ++ sub) ∧
    ((isDownloadable P fileId "video").1.1 = true ↔ ∃ sub : String, ct = "video/" ++ sub) ∧
    (isDownloadable P fileId "image").1.2 = none ∧
    (isDownloadable P fileId "video").1.2 = none := by
  rw [isDownloadable_ok P fileId "pdf" u _ hs hg, isDownloadable_ok P fileId "image" u _ hs hg,
    isDownloadable_ok P fileId "video" u _ hs hg]
  refine ⟨?_, ?_, ?_, ?_, rfl, rfl⟩
  · simp [switchTest, mimeTypesAt_pdf]
  · simp [switchTest, mimeTypesAt_pdf]
  · simp [switchTest, mimeTypesAt_image, hasPrefix_iff]
  · simp [switchTest, mimeTypesAt_video, hasPrefix_iff]

/-- Witness for C4: the near miss `application/pdf; charset=binary` is not a PDF. -/
theorem isDownloadable_true_iff_witness :
    (typedProvider "application/pdf; charset=binary").newService = .ok () ∧
    (typedProvider "application/pdf; charset=binary").filesGet "ABC" =
      .ok ⟨"ABC", "application/pdf; charset=binary"⟩ ∧
    (isDownloadable (typedProvider "application/pdf; charset=binary") "ABC" "pdf").1 =
      (false, none) :=
  ⟨rfl, rfl,
    (isDownloadable_true_iff (typedProvider "application/pdf; charset=binary") "ABC" "ABC"
      "application/pdf; charset=binary" () rfl rfl).1.trans (by decide)⟩

/-- C5: a category other than `pdf`, `image`, `video` is answered with status 400 and
`Invalid type`, for every link and provider, with no call made at all: neither link
extraction nor a provider request.  A recognised category is never answered so, and
the run goes on to link extraction. -/
theorem handler_invalid_type (P : Provider) (link ty : String) :
    (¬ Recognised ty →
      checkDownloadableHandler P (some ⟨link, ty⟩) =
        (⟨400, "error", "Invalid type"⟩, [])) ∧
    (Recognised ty →
      (checkDownloadableHandler P (some ⟨link, ty⟩)).1 ≠ ⟨400, "error", "Invalid type"⟩ ∧
      (checkDownloadableHandler P (some ⟨link, ty⟩)).2.head? =
        some (Event.extractIdFromLink link)) := by
  constructor
  · intro h
    have hty : mimeTypesOk ty = false := by
      cases hb : mimeTypesOk ty with
      | false => rfl
      | true => exact absurd ((mimeTypesOk_iff ty).mp hb) h
    exact handler_bad_type P link ty hty
  · intro h
    have hty : mimeTypesOk ty = true := (mimeTypesOk_iff ty).mpr h
    rcases handler_cases P link ty with ⟨h0, -⟩ | ⟨-, -, ho⟩ | ⟨-, -, -, ho⟩ | ⟨-, -, -, ho⟩
    · rw [hty] at h0
      exact absurd h0 (by simp)
    · rw [ho]
      refine ⟨?_, rfl⟩
      intro hr
      have hv : "Invalid link format" = "Invalid type" := congrArg Response.value hr
      exact absurd hv (by decide)
    · rw [ho]
      exact ⟨respond_ne_bad_request _ _ _, rfl⟩
    · rw [ho]
      exact ⟨respond_ne_bad_request _ _ _, rfl⟩

/-- Witness for C5: the case variant `PDF` is rejected on a valid link, `pdf` is not. -/
theorem handler_invalid_type_witness :
    ¬ Recognised "PDF" ∧ Recognised "pdf" ∧
    checkDownloadableHandler sampleProvider (some ⟨"https://drive.google.com/file/d/ABC", "PDF"⟩) =
      (⟨400, "error", "Invalid type"⟩, []) ∧
    (checkDownloadableHandler sampleProvider
      (some ⟨"https://drive.google.com/file/d/ABC", "pdf"⟩)).1 ≠ ⟨400, "error", "Invalid type"⟩ :=
  ⟨by unfold Recognised; decide, Or.inl rfl,
    (handler_invalid_type sampleProvider "https://drive.google.com/file/d/ABC" "PDF").1
      (by unfold Recognised; decide),
    ((handler_invalid_type sampleProvider "https://drive.google.com/file/d/ABC" "pdf").2
      (Or.inl rfl)).1⟩

/-- C6: when neither pattern matches anywhere in the link, `extractIdFromLink` returns the
empty string, and for a recognised category the handler answers with status 400 and
`Invalid link format`; the only call of the run is the link extraction, so neither
evaluator is called and no provider request is made. -/
theorem handler_invalid_link (P : Provider) (link ty : String) (hty : Recognised ty)
    (hfile : ¬ fileIdRegex.Occurs link.toList)
    (hfolder : ¬ folderIdRegex.Occurs link.toList) :
    extractIdFromLink link = "" ∧
    checkDownloadableHandler P (some ⟨link, ty⟩) =
      (⟨400, "error", "Invalid link format"⟩, [Event.extractIdFromLink link]) := by
  have hid : extractIdFromLink link = "" :=
    extract_of_none link ((findChars_eq_nil_iff _ _).mpr hfile)
      ((findChars_eq_nil_iff _ _).mpr hfolder)
  exact ⟨hid, handler_bad_link P link ty ((mimeTypesOk_iff ty).mpr hty) hid⟩

/-- Witness for C6: the link `https://example.com/nothing` with category `image`. -/
theorem handler_invalid_link_witness :
    Recognised "image" ∧
    ¬ fileIdRegex.Occurs "https://example.com/nothing".toList ∧
    ¬ folderIdRegex.Occurs "https://example.com/nothing".toList ∧
    checkDownloadableHandler sampleProvider (some ⟨"https://example.com/nothing", "image"⟩) =
      (⟨400, "error", "Invalid link format"⟩,
        [Event.extractIdFromLink "https://example.com/nothing"]) :=
  ⟨Or.inr (Or.inl rfl), (findChars_eq_nil_iff _ _).mp (by decide),
    (findChars_eq_nil_iff _ _).mp (by decide),
    (handler_invalid_link sampleProvider "https://example.com/nothing" "image"
      (Or.inr (Or.inl rfl)) ((findChars_eq_nil_iff _ _).mp (by decide))
      ((findChars_eq_nil_iff _ _).mp (by decide))).2⟩

/-- C7: when the service is up and the metadata fetch (resp. the child listing) fails with
`e`, `isDownloadable` (resp. `checkFolder`) returns `(false, e)` for every category,
having made that one request; and whenever a run of the handler made a provider request
that failed with `e`, the response has status 500 and the error field `e.Error()`. -/
theorem provider_failure_passes_through (P : Provider) (link id ty : String) (e : GoError) :
    (∀ u, P.newService = .ok u → P.filesGet id = .error e →
      isDownloadable P id ty = ((false, some e), [Event.filesGet id])) ∧
    (∀ u, P.newService = .ok u → P.filesList (parentsQuery id) = .error e →
      checkFolder P id ty = ((false, some e), [Event.filesList (parentsQuery id)])) ∧
    (Event.filesGet id ∈ (checkDownloadableHandler P (some ⟨link, ty⟩)).2 →
      P.filesGet id = .error e →
      (checkDownloadableHandler P (some ⟨link, ty⟩)).1 = ⟨500, "error", e.Error⟩) ∧
    (∀ q, Event.filesList q ∈ (checkDownloadableHandler P (some ⟨link, ty⟩)).2 →
      P.filesList q = .error e →
      (checkDownloadableHandler P (some ⟨link, ty⟩)).1 = ⟨500, "error", e.Error⟩) := by
  refine ⟨fun u hs hg => isDownloadable_error P id ty u e hs hg,
    fun u hs hl => checkFolder_error P id ty u e hs hl, ?_, ?_⟩
  · intro hmem hg
    obtain ⟨-, ⟨u, hs⟩, ho⟩ := filesGet_mem_handler P link ty id hmem
    rw [ho, isDownloadable_error P id ty u e hs hg]
    rfl
  · intro q hmem hl
    obtain ⟨hq, ⟨u, hs⟩, ho⟩ := filesList_mem_handler P link ty q hmem
    subst hq
    rw [ho, checkFolder_error P _ ty u e hs hl]
    rfl

/-- Witness for C7: with `failingProvider` the listing for the folder link fails with
`quota exceeded`; `checkFolder` returns `(false, e)` and the handler answers 500 with
that message. -/
theorem provider_failure_passes_through_witness :
    failingProvider.newService = .ok () ∧
    failingProvider.filesList (parentsQuery "XYZ") = .error ⟨"quota exceeded"⟩ ∧
    Event.filesList "'XYZ' in parents" ∈
      (checkDownloadableHandler failingProvider
        (some ⟨"https://drive.google.com/drive/folders/XYZ", "video"⟩)).2 ∧
    checkFolder failingProvider "XYZ" "video" =
      ((false, some ⟨"quota exceeded"⟩), [Event.filesList (parentsQuery "XYZ")]) ∧
    (checkDownloadableHandler failingProvider
      (some ⟨"https://drive.google.com/drive/folders/XYZ", "video"⟩)).1 =
        ⟨500, "error", "quota exceeded"⟩ :=
  ⟨rfl, rfl, by decide,
    (provider_failure_passes_through failingProvider
      "https://drive.google.com/drive/folders/XYZ" "XYZ" "video" ⟨"quota exceeded"⟩).2.1
      () rfl rfl,
    (provider_failure_passes_through failingProvider
      "https://drive.google.com/drive/folders/XYZ" "XYZ" "video" ⟨"quota exceeded"⟩).2.2.2
      "'XYZ' in parents" (by decide) rfl⟩

/-- C8: one run of the handler makes at most one provider request: none, or exactly one
metadata fetch (of the extracted id), or exactly one child listing (of the extracted
id), whatever the body, the provider and the number of children listed. -/
theorem handler_at_most_one_provider_call (P : Provider) (body : Option Request) :
    (providerCalls (checkDownloadableHandler P body).2).length ≤ 1 ∧
    (providerCalls (checkDownloadableHandler P body).2 = [] ∨
      (∃ req, body = some req ∧ providerCalls (checkDownloadableHandler P body).2 =
        [Event.filesGet (extractIdFromLink req.Link)]) ∨
      (∃ req, body = some req ∧ providerCalls (checkDownloadableHandler P body).2 =
        [Event.filesList (parentsQuery (extractIdFromLink req.Link))])) := by
  have key : providerCalls (checkDownloadableHandler P body).2 = [] ∨
      (∃ req, body = some req ∧ providerCalls (checkDownloadableHandler P body).2 =
        [Event.filesGet (extractIdFromLink req.Link)]) ∨
      (∃ req, body = some req ∧ providerCalls (checkDownloadableHandler P body).2 =
        [Event.filesList (parentsQuery (extractIdFromLink req.Link))]) := by
    cases body with
    | none => exact Or.inl rfl
    | some req =>
      obtain ⟨link, ty⟩ := req
      rcases handler_cases P link ty with ⟨-, ho⟩ | ⟨-, -, ho⟩ | ⟨-, -, -, ho⟩ | ⟨-, -, -, ho⟩
      · rw [ho]
        exact Or.inl rfl
      · rw [ho]
        exact Or.inl rfl
      · rw [ho]
        rcases checkFolder_log P (extractIdFromLink link) ty with ⟨hl, -⟩ | ⟨hl, -⟩
        · rw [hl]
          exact Or.inl rfl
        · rw [hl]
          exact Or.inr (Or.inr ⟨_, rfl, rfl⟩)
      · rw [ho]
        rcases isDownloadable_log P (extractIdFromLink link) ty with ⟨hl, -⟩ | ⟨hl, -⟩
        · rw [hl]
          exact Or.inl rfl
        · rw [hl]
          exact Or.inr (Or.inl ⟨_, rfl, rfl⟩)
  refine ⟨?_, key⟩
  rcases key with h | ⟨_, -, h⟩ | ⟨_, -, h⟩ <;> simp [h]

/-- C9: for every folder id and every category string, when the service is up and the
listing succeeds with no children, `checkFolder` returns `(false, nil)`; and whenever a
run of the handler made a listing request that succeeded with no children, the response
is the success response with result `no`. -/
theorem empty_folder_is_no (P : Provider) (link folderId ty : String) :
    (∀ u, P.newService = .ok u → P.filesList (parentsQuery folderId) = .ok [] →
      checkFolder P folderId ty =
        ((false, none), [Event.filesList (parentsQuery folderId)])) ∧
    (∀ q, Event.filesList q ∈ (checkDownloadableHandler P (some ⟨link, ty⟩)).2 →
      P.filesList q = .ok [] →
      (checkDownloadableHandler P (some ⟨link, ty⟩)).1 = ⟨200, "result", "no"⟩) := by
  constructor
  · intro u hs hl
    rw [checkFolder_ok P folderId ty u [] hs hl]
    rfl
  · intro q hmem hl
    obtain ⟨hq, ⟨u, hs⟩, ho⟩ := filesList_mem_handler P link ty q hmem
    subst hq
    rw [ho, checkFolder_ok P _ ty u [] hs hl]
    rfl

/-- Witness for C9: the folder `EMPTY` of `sampleProvider` has no children; `checkFolder`
returns `(false, nil)` and the handler answers 200 with result `no`. -/
theorem empty_folder_is_no_witness :
    sampleProvider.newService = .ok () ∧
    sampleProvider.filesList (parentsQuery "EMPTY") = .ok [] ∧
    Event.filesList "'EMPTY' in parents" ∈
      (checkDownloadableHandler sampleProvider
        (some ⟨"https://drive.google.com/drive/folders/EMPTY", "video"⟩)).2 ∧
    checkFolder sampleProvider "EMPTY" "video" =
      ((false, none), [Event.filesList (parentsQuery "EMPTY")]) ∧
    (checkDownloadableHandler sampleProvider
      (some ⟨"https://drive.google.com/drive/folders/EMPTY", "video"⟩)).1 =
        ⟨200, "result", "no"⟩ :=
  ⟨rfl, rfl, by decide,
    (empty_folder_is_no sampleProvider "https://drive.google.com/drive/folders/EMPTY"
      "EMPTY" "video").1 () rfl rfl,
    (empty_folder_is_no sampleProvider "https://drive.google.com/drive/folders/EMPTY"
      "EMPTY" "video").2 "'EMPTY' in parents" (by decide) rfl⟩

/-- C10: for a recognised category and two providers that are up and list `L` and `L'`
for the folder: if `checkFolder` yields `false` on `L` and `L'` is `L` with a child
satisfying the rule inserted at any position, it yields `true` on `L'`; if `L'` is what
remains of `L` after removing children and no child of `L'` satisfies the rule, it
yields `false` on `L'`; and if `L'` is `L` with children added, a `true` on `L` stays
`true` on `L'`. -/
theorem checkFolder_monotone (P P' : Provider) (folderId ty : String) (L L' : List File)
    (u u' : Unit) (hty : Recognised ty)
    (hs : P.newService = .ok u) (hl : P.filesList (parentsQuery folderId) = .ok L)
    (hs' : P'.newService = .ok u') (hl' : P'.filesList (parentsQuery folderId) = .ok L') :
    ((checkFolder P folderId ty).1 = (false, none) →
      ∀ (L₁ L₂ : List File) (c : File), L = L₁ ++ L₂ → L' = L₁ ++ c :: L₂ →
        SatisfiesCategory ty c.MimeType → (checkFolder P' folderId ty).1 = (true, none)) ∧
    (L'.Sublist L → (∀ f ∈ L', ¬ SatisfiesCategory ty f.MimeType) →
      (checkFolder P' folderId ty).1 = (false, none)) ∧
    (L.Sublist L' → (checkFolder P folderId ty).1 = (true, none) →
      (checkFolder P' folderId ty).1 = (true, none)) := by
  have _ := hty
  rw [checkFolder_ok P folderId ty u L hs hl, checkFolder_ok P' folderId ty u' L' hs' hl']
  refine ⟨?_, ?_, ?_⟩
  · intro _ L₁ L₂ c _ hL' hc
    have : checkFolderLoop ty L' = true :=
      (checkFolderLoop_iff ty L').mpr ⟨c, by simp [hL'], hc⟩
    simp [this]
  · intro _ hnone
    have : checkFolderLoop ty L' = false := by
      cases hb : checkFolderLoop ty L' with
      | false => rfl
      | true =>
        obtain ⟨f, hf, hsat⟩ := (checkFolderLoop_iff ty L').mp hb
        exact absurd hsat (hnone f hf)
    simp [this]
  · intro hsub htrue
    have h1 : checkFolderLoop ty L = true := by simpa using htrue
    obtain ⟨f, hf, hsat⟩ := (checkFolderLoop_iff ty L).mp h1
    have : checkFolderLoop ty L' = true :=
      (checkFolderLoop_iff ty L').mpr ⟨f, hsub.subset hf, hsat⟩
    simp [this]

/-- Witness for C10: a folder listing one image yields `false` for `video`; with a video
child inserted after the image it yields `true`. -/
theorem checkFolder_monotone_witness :
    Recognised "video" ∧
    (checkFolder (listingProvider [⟨"1", "image/png"⟩]) "XYZ" "video").1 = (false, none) ∧
    SatisfiesCategory "video" "video/mp4" ∧
    (checkFolder (listingProvider [⟨"1", "image/png"⟩, ⟨"2", "video/mp4"⟩]) "XYZ" "video").1 =
      (true, none) :=
  ⟨Or.inr (Or.inr rfl), by decide, Or.inr (Or.inr ⟨rfl, "mp4", by decide⟩),
    (checkFolder_monotone (listingProvider [⟨"1", "image/png"⟩])
      (listingProvider [⟨"1", "image/png"⟩, ⟨"2", "video/mp4"⟩]) "XYZ" "video"
      [⟨"1", "image/png"⟩] [⟨"1", "image/png"⟩, ⟨"2", "video/mp4"⟩] () ()
      (Or.inr (Or.inr rfl)) rfl rfl rfl rfl).1 (by decide)
      [⟨"1", "image/png"⟩] [] ⟨"2", "video/mp4"⟩ rfl rfl
      (Or.inr (Or.inr ⟨rfl, "mp4", by decide⟩))⟩

/-! ## Lemmas on the evaluator calls of a run -/

theorem checkFolder_mem_handler (P : Provider) (link ty id ty' : String)
    (h : Event.checkFolder id ty' ∈ (checkDownloadableHandler P (some ⟨link, ty⟩)).2) :
    id = extractIdFromLink link ∧ ty' = ty ∧ mimeTypesOk ty = true ∧
      extractIdFromLink link ≠ "" ∧
      checkDownloadableHandler P (some ⟨link, ty⟩) =
        (respond (checkFolder P id ty).1,
          Event.extractIdFromLink link :: Event.checkFolder id ty ::
            (checkFolder P id ty).2) := by
  rcases handler_cases P link ty with ⟨-, ho⟩ | ⟨-, -, ho⟩ | ⟨hty, hid, -, ho⟩ | ⟨-, -, -, ho⟩
  · rw [ho] at h
    simp at h
  · rw [ho] at h
    simp at h
  · rw [ho] at h
    have hcases : id = extractIdFromLink link ∧ ty' = ty := by
      rcases checkFolder_log P (extractIdFromLink link) ty with ⟨hl, -⟩ | ⟨hl, -⟩ <;>
        · rw [hl] at h
          simpa using h
    obtain ⟨h1, h2⟩ := hcases
    subst h1
    exact ⟨rfl, h2, hty, hid, ho⟩
  · rw [ho] at h
    rcases isDownloadable_log P (extractIdFromLink link) ty with ⟨hl, -⟩ | ⟨hl, -⟩ <;>
      · rw [hl] at h
        simp at h

theorem isDownloadable_mem_handler (P : Provider) (link ty id ty' : String)
    (h : Event.isDownloadable id ty' ∈ (checkDownloadableHandler P (some ⟨link, ty⟩)).2) :
    id = extractIdFromLink link ∧ ty' = ty ∧ mimeTypesOk ty = true ∧
      extractIdFromLink link ≠ "" ∧
      checkDownloadableHandler P (some ⟨link, ty⟩) =
        (respond (isDownloadable P id ty).1,
          Event.extractIdFromLink link :: Event.isDownloadable id ty ::
            (isDownloadable P id ty).2) := by
  rcases handler_cases P link ty with ⟨-, ho⟩ | ⟨-, -, ho⟩ | ⟨-, -, -, ho⟩ | ⟨hty, hid, -, ho⟩
  · rw [ho] at h
    simp at h
  · rw [ho] at h
    simp at h
  · rw [ho] at h
    rcases checkFolder_log P (extractIdFromLink link) ty with ⟨hl, -⟩ | ⟨hl, -⟩ <;>
      · rw [hl] at h
        simp at h
  · rw [ho] at h
    have hcases : id = extractIdFromLink link ∧ ty' = ty := by
      rcases isDownloadable_log P (extractIdFromLink link) ty with ⟨hl, -⟩ | ⟨hl, -⟩ <;>
        · rw [hl] at h
          simpa using h
    obtain ⟨h1, h2⟩ := hcases
    subst h1
    exact ⟨rfl, h2, hty, hid, ho⟩

/-! ## The claims on responses and on the category reaching the evaluators -/

/-- C11: in a run of the handler that called an evaluator which returned the boolean `b`
and no error, the response is status 200 with result `yes` for `b = true` and `no` for
`b = false`; for every body, a response that has status 200 or a result field is one of
these two; and a run that fetched the metadata of a file whose content type does not
satisfy the rule of the category answers 200 with result `no`. -/
theorem handler_result_yes_or_no (P : Provider) (link ty : String) :
    (∀ id ty' b, Event.isDownloadable id ty' ∈ (checkDownloadableHandler P (some ⟨link, ty⟩)).2 →
      (isDownloadable P id ty').1 = (b, none) →
      (checkDownloadableHandler P (some ⟨link, ty⟩)).1 =
        ⟨200, "result", if b then "yes" else "no"⟩) ∧
    (∀ id ty' b, Event.checkFolder id ty' ∈ (checkDownloadableHandler P (some ⟨link, ty⟩)).2 →
      (checkFolder P id ty').1 = (b, none) →
      (checkDownloadableHandler P (some ⟨link, ty⟩)).1 =
        ⟨200, "result", if b then "yes" else "no"⟩) ∧
    (∀ body, ((checkDownloadableHandler P body).1.status = 200 ∨
        (checkDownloadableHandler P body).1.key = "result") →
      (checkDownloadableHandler P body).1 = ⟨200, "result", "yes"⟩ ∨
      (checkDownloadableHandler P body).1 = ⟨200, "result", "no"⟩) ∧
    (∀ id file, Event.filesGet id ∈ (checkDownloadableHandler P (some ⟨link, ty⟩)).2 →
      P.filesGet id = .ok file → ¬ SatisfiesCategory ty file.MimeType →
      (checkDownloadableHandler P (some ⟨link, ty⟩)).1 = ⟨200, "result", "no"⟩) := by
  refine ⟨?_, ?_, ?_, ?_⟩
  · intro id ty' b hmem hres
    obtain ⟨-, hty, -, -, ho⟩ := isDownloadable_mem_handler P link ty id ty' hmem
    subst hty
    rw [ho, hres]
    rfl
  · intro id ty' b hmem hres
    obtain ⟨-, hty, -, -, ho⟩ := checkFolder_mem_handler P link ty id ty' hmem
    subst hty
    rw [ho, hres]
    rfl
  · intro body h
    have hyn : ∀ r : Bool × Option GoError,
        ((respond r).status = 200 ∨ (respond r).key = "result") →
        respond r = ⟨200, "result", "yes"⟩ ∨ respond r = ⟨200, "result", "no"⟩ := by
      rintro ⟨b, e⟩ hr
      cases e with
      | some err =>
        rcases hr with hr | hr
        · exact absurd (show (500 : Nat) = 200 from hr) (by decide)
        · exact absurd (show "error" = "result" from hr) (by decide)
      | none =>
        cases b with
        | true => exact Or.inl rfl
        | false => exact Or.inr rfl
    cases body with
    | none =>
      rcases h with h | h
      · exact absurd (show (400 : Nat) = 200 from h) (by decide)
      · exact absurd (show "error" = "result" from h) (by decide)
    | some req =>
      obtain ⟨l, t⟩ := req
      rcases handler_cases P l t with ⟨-, ho⟩ | ⟨-, -, ho⟩ | ⟨-, -, -, ho⟩ | ⟨-, -, -, ho⟩
      · rw [ho] at h
        rcases h with h | h
        · exact absurd (show (400 : Nat) = 200 from h) (by decide)
        · exact absurd (show "error" = "result" from h) (by decide)
      · rw [ho] at h
        rcases h with h | h
        · exact absurd (show (400 : Nat) = 200 from h) (by decide)
        · exact absurd (show "error" = "result" from h) (by decide)
      · rw [ho] at h ⊢
        exact hyn _ h
      · rw [ho] at h ⊢
        exact hyn _ h
  · intro id file hmem hg hns
    obtain ⟨-, ⟨u, hs⟩, ho⟩ := filesGet_mem_handler P link ty id hmem
    have hsw : switchTest ty file.MimeType = false := by
      cases hb : switchTest ty file.MimeType with
      | false => rfl
      | true => exact absurd ((switchTest_iff _ _).mp hb) hns
    rw [ho, isDownloadable_ok P id ty u file hs hg, hsw]
    rfl

/-- Witness for C11: the file `ABC123` is a PDF and the category is `image`; the run
fetches the metadata and answers 200 with result `no`. -/
theorem handler_result_yes_or_no_witness :
    Event.filesGet "ABC123" ∈
      (checkDownloadableHandler (typedProvider "application/pdf")
        (some ⟨"https://drive.google.com/file/d/ABC123", "image"⟩)).2 ∧
    (typedProvider "application/pdf").filesGet "ABC123" = .ok ⟨"ABC123", "application/pdf"⟩ ∧
    ¬ SatisfiesCategory "image" "application/pdf" ∧
    (checkDownloadableHandler (typedProvider "application/pdf")
      (some ⟨"https://drive.google.com/file/d/ABC123", "image"⟩)).1 = ⟨200, "result", "no"⟩ :=
  ⟨by decide, rfl, fun h => absurd ((switchTest_iff _ _).mpr h) (by decide),
    (handler_result_yes_or_no (typedProvider "application/pdf")
      "https://drive.google.com/file/d/ABC123" "image").2.2.2 "ABC123"
      ⟨"ABC123", "application/pdf"⟩ (by decide) rfl
      (fun h => absurd ((switchTest_iff _ _).mpr h) (by decide))⟩

/-- C12: whenever a run of the handler calls `isDownloadable` or `checkFolder`, the
category it passes is the category of the request and is one of `pdf`, `image`,
`video`; so no call made by the handler reaches the `default` branch of the switch. -/
theorem evaluator_category_recognised (P : Provider) (body : Option Request)
    (id ty' : String)
    (h : Event.isDownloadable id ty' ∈ (checkDownloadableHandler P body).2 ∨
      Event.checkFolder id ty' ∈ (checkDownloadableHandler P body).2) :
    Recognised ty' ∧ ∃ req, body = some req ∧ ty' = req.Typ ∧
      id = extractIdFromLink req.Link := by
  cases body with
  | none =>
    rcases h with h | h <;> simp [checkDownloadableHandler] at h
  | some req =>
    obtain ⟨link, ty⟩ := req
    rcases h with h | h
    · obtain ⟨hid, hty, hok, -, -⟩ := isDownloadable_mem_handler P link ty id ty' h
      subst hty
      exact ⟨(mimeTypesOk_iff _).mp hok, _, rfl, rfl, hid⟩
    · obtain ⟨hid, hty, hok, -, -⟩ := checkFolder_mem_handler P link ty id ty' h
      subst hty
      exact ⟨(mimeTypesOk_iff _).mp hok, _, rfl, rfl, hid⟩

/-- Witness for C12: the run on a file link with category `pdf` calls `isDownloadable`
with `pdf`. -/
theorem evaluator_category_recognised_witness :
    (Event.isDownloadable "ABC" "pdf" ∈
        (checkDownloadableHandler sampleProvider
          (some ⟨"https://drive.google.com/file/d/ABC", "pdf"⟩)).2 ∨
      Event.checkFolder "ABC" "pdf" ∈
        (checkDownloadableHandler sampleProvider
          (some ⟨"https://drive.google.com/file/d/ABC", "pdf"⟩)).2) ∧
    Recognised "pdf" :=
  ⟨Or.inl (by decide),
    (evaluator_category_recognised sampleProvider
      (some ⟨"https://drive.google.com/file/d/ABC", "pdf"⟩) "ABC" "pdf"
      (Or.inl (by decide))).1⟩

/-! ## Lemmas on the characters of an extracted id -/

theorem isIdChar_iff_alphanum (c : Char) :
    isIdChar c = true ↔ c.isAlphanum = true ∨ c = '-' ∨ c = '_' := by
  simp only [isIdChar, Char.isAlphanum, Char.isAlpha, Char.isUpper, Char.isLower, Char.isDigit,
    Bool.or_eq_true, Bool.and_eq_true, decide_eq_true_eq, beq_iff_eq, Char.le_def, ge_iff_le]
  have e1 : ('a' : Char).val = 97 := rfl
  have e2 : ('z' : Char).val = 122 := rfl
  have e3 : ('A' : Char).val = 65 := rfl
  have e4 : ('Z' : Char).val = 90 := rfl
  have e5 : ('0' : Char).val = 48 := rfl
  have e6 : ('9' : Char).val = 57 := rfl
  rw [e1, e2, e3, e4, e5, e6]
  tauto

theorem isIdChar_not_special (c : Char) (h : isIdChar c = true) :
    c ≠ Char.ofNat 39 ∧ c ≠ Char.ofNat 92 ∧ c.isWhitespace = false := by
  refine ⟨?_, ?_, ?_⟩
  · rintro rfl
    exact absurd h (by decide)
  · rintro rfl
    exact absurd h (by decide)
  · cases hw : c.isWhitespace with
    | false => rfl
    | true =>
      simp only [Char.isWhitespace, Bool.or_eq_true, decide_eq_true_eq] at hw
      rcases hw with ((rfl | rfl) | rfl) | rfl <;> exact absurd h (by decide)

theorem extract_cases (link : String) :
    (extractIdFromLink link = "" ∧ ¬ fileIdRegex.Occurs link.toList ∧
        ¬ folderIdRegex.Occurs link.toList) ∨
      (∃ id, id ≠ [] ∧ (∀ c ∈ id, isIdChar c = true) ∧ extractIdFromLink link = String.mk id ∧
        (fileIdRegex.Occurs link.toList ∨ folderIdRegex.Occurs link.toList)) := by
  rcases findChars_cases fileIdRegex link.toList with ⟨h0, hno⟩ | ⟨id, hc, hf⟩
  · rcases findChars_cases folderIdRegex link.toList with ⟨h1, hno1⟩ | ⟨id, hc, hf⟩
    · exact Or.inl ⟨extract_of_none link h0 h1, hno, hno1⟩
    · right
      have hocc := occurs_of_captures _ _ _ hc
      obtain ⟨p, r, -, hne, hall, -, -⟩ := hc
      exact ⟨id, hne, hall, extract_of_folder link id h0 hf, Or.inr hocc⟩
  · right
    have hocc := occurs_of_captures _ _ _ hc
    obtain ⟨p, r, -, hne, hall, -, -⟩ := hc
    exact ⟨id, hne, hall, extract_of_file link id hf, Or.inl hocc⟩

theorem extract_chars (link : String) :
    ∀ c ∈ (extractIdFromLink link).toList, isIdChar c = true := by
  rcases extract_cases link with ⟨h, -, -⟩ | ⟨id, -, hall, h, -⟩
  · rw [h]
    intro c hc
    simp at hc
  · rw [h]
    exact hall

theorem count_quote_parentsQuery (id : String)
    (h : ∀ c ∈ id.toList, c ≠ Char.ofNat 39) :
    (parentsQuery id).toList.count (Char.ofNat 39) = 2 := by
  have hz : id.toList.count (Char.ofNat 39) = 0 :=
    List.count_eq_zero.mpr (fun hm => h _ hm rfl)
  have e : (parentsQuery id).toList =
      [Char.ofNat 39] ++ id.toList ++ "' in parents".toList := by
    simp [parentsQuery, String.toList]
  have hs : "' in parents".toList.count (Char.ofNat 39) = 1 := by decide
  rw [e, List.count_append, List.count_append, hz, hs]
  rfl

theorem leftmost_of_matchAt_nil (re : Regexp) (s p : List Char)
    (h : ∀ k < p.length, re.matchAt (s.drop k) = []) :
    ∀ p' c r', s = p' ++ re.lit ++ c :: r' → isIdChar c = true → p.length ≤ p'.length := by
  intro p' c r' hs hc
  by_contra hlt
  have hk := h p'.length (Nat.lt_of_not_le hlt)
  have hd : s.drop p'.length = re.lit ++ c :: r' := by
    rw [hs, List.append_assoc, List.drop_left]
  rw [hd] at hk
  exact (matchAt_eq_nil_iff re _).mp hk ⟨c, r', rfl, hc⟩

/-! ## The claims on the extracted id -/

/-- C13: let `id` be a non-empty run of identifier characters and `r` be empty or begin
with a character that is not one.  If the link is `p ++ "/d/" ++ id ++ r` and no
occurrence of `/d/` followed by an identifier character starts before the end of `p`,
then `extractIdFromLink` returns exactly `id`.  The same holds for
`p ++ "/folders/" ++ id ++ r` when the file pattern matches nowhere in the link. -/
theorem extractIdFromLink_leftmost_maximal (link : String) (p id r : List Char)
    (hid : id ≠ []) (hall : ∀ c ∈ id, isIdChar c = true)
    (hr : ∀ c ∈ r.head?, isIdChar c = false) :
    (link.toList = p ++ "/d/".toList ++ id ++ r →
      (∀ p' c r', link.toList = p' ++ "/d/".toList ++ c :: r' → isIdChar c = true →
        p.length ≤ p'.length) →
      extractIdFromLink link = String.mk id) ∧
    (link.toList = p ++ "/folders/".toList ++ id ++ r →
      (∀ p' c r', link.toList = p' ++ "/folders/".toList ++ c :: r' → isIdChar c = true →
        p.length ≤ p'.length) →
      (¬ ∃ p' c r', link.toList = p' ++ "/d/".toList ++ c :: r' ∧ isIdChar c = true) →
      extractIdFromLink link = String.mk id) := by
  constructor
  · intro hs hleft
    have hc : fileIdRegex.Captures link.toList id := ⟨p, r, hs, hid, hall, hr, hleft⟩
    exact extract_of_file link id (findChars_of_captures _ _ _ hc)
  · intro hs hleft hnofile
    have hc : folderIdRegex.Captures link.toList id := ⟨p, r, hs, hid, hall, hr, hleft⟩
    have h0 : fileIdRegex.findChars link.toList = [] :=
      (findChars_eq_nil_iff _ _).mpr hnofile
    exact extract_of_folder link id h0 (findChars_of_captures _ _ _ hc)

/-- Witness for C13: `https://drive.google.com/file/d/ABC123/view?usp=sharing` gives
`ABC123`. -/
theorem extractIdFromLink_leftmost_maximal_witness :
    "https://drive.google.com/file/d/ABC123/view?usp=sharing".toList =
      "https://drive.google.com/file".toList ++ "/d/".toList ++ "ABC123".toList ++
        "/view?usp=sharing".toList ∧
    (∀ c ∈ "ABC123".toList, isIdChar c = true) ∧
    (∀ c ∈ "/view?usp=sharing".toList.head?, isIdChar c = false) ∧
    extractIdFromLink "https://drive.google.com/file/d/ABC123/view?usp=sharing" = "ABC123" :=
  ⟨by decide, by decide, by intro c hc; simp at hc; subst hc; decide,
    (extractIdFromLink_leftmost_maximal
      "https://drive.google.com/file/d/ABC123/view?usp=sharing"
      "https://drive.google.com/file".toList "ABC123".toList "/view?usp=sharing".toList
      (by decide) (by decide) (by intro c hc; simp at hc; subst hc; decide)).1 (by decide)
      (leftmost_of_matchAt_nil fileIdRegex _ "https://drive.google.com/file".toList
        (by decide))⟩

/-- C14: `extractIdFromLink` returns the empty string exactly when neither pattern
matches in the link; every character of its result is one of `A-Z`, `a-z`, `0-9`, `-`,
`_`, hence no single quote, backslash or whitespace; and every id a run of the handler
passes to `checkFolder` is such a non-empty result, so the query
`'<id>' in parents` built from it holds exactly two single quotes, as does every
listing query the run sends. -/
theorem extractIdFromLink_id_chars (link : String) :
    (extractIdFromLink link = "" ↔
      ¬ fileIdRegex.Occurs link.toList ∧ ¬ folderIdRegex.Occurs link.toList) ∧
    (∀ c ∈ (extractIdFromLink link).toList,
      (c.isAlphanum = true ∨ c = '-' ∨ c = '_') ∧
      c ≠ Char.ofNat 39 ∧ c ≠ Char.ofNat 92 ∧ c.isWhitespace = false) ∧
    (∀ (P : Provider) (ty id ty' : String),
      Event.checkFolder id ty' ∈ (checkDownloadableHandler P (some ⟨link, ty⟩)).2 →
      id = extractIdFromLink link ∧ id ≠ "" ∧
      parentsQuery id = "'" ++ id ++ "' in parents" ∧
      (parentsQuery id).toList.count (Char.ofNat 39) = 2) ∧
    (∀ (P : Provider) (ty q : String),
      Event.filesList q ∈ (checkDownloadableHandler P (some ⟨link, ty⟩)).2 →
      q = parentsQuery (extractIdFromLink link) ∧ q.toList.count (Char.ofNat 39) = 2) := by
  have hq : (parentsQuery (extractIdFromLink link)).toList.count (Char.ofNat 39) = 2 :=
    count_quote_parentsQuery _ (fun c hc => (isIdChar_not_special c (extract_chars link c hc)).1)
  refine ⟨?_, ?_, ?_, ?_⟩
  · rcases extract_cases link with ⟨h, hf, hg⟩ | ⟨id, hne, -, h, hocc⟩
    · exact ⟨fun _ => ⟨hf, hg⟩, fun _ => h⟩
    · constructor
      · intro he
        rw [h] at he
        have : id = [] := congrArg String.data he
        exact absurd this hne
      · rintro ⟨hf, hg⟩
        rcases hocc with ho | ho
        · exact absurd ho hf
        · exact absurd ho hg
  · intro c hc
    have hi := extract_chars link c hc
    exact ⟨(isIdChar_iff_alphanum c).mp hi, isIdChar_not_special c hi⟩
  · intro P ty id ty' hmem
    obtain ⟨hid, -, -, hne, -⟩ := checkFolder_mem_handler P link ty id ty' hmem
    subst hid
    exact ⟨rfl, hne, rfl, hq⟩
  · intro P ty q hmem
    obtain ⟨hqe, -, -⟩ := filesList_mem_handler P link ty q hmem
    subst hqe
    exact ⟨rfl, hq⟩

/-- Witness for C14: in `https://drive.google.com/drive/folders/XY' or 'a' in parents`
the id stops before the quote; the run calls `checkFolder` with `XY` and the query
`'XY' in parents` holds two single quotes. -/
theorem extractIdFromLink_id_chars_witness :
    Event.checkFolder "XY" "pdf" ∈
      (checkDownloadableHandler sampleProvider
        (some ⟨"https://drive.google.com/drive/folders/XY' or 'a' in parents", "pdf"⟩)).2 ∧
    "XY" = extractIdFromLink "https://drive.google.com/drive/folders/XY' or 'a' in parents" ∧
    (parentsQuery "XY").toList.count (Char.ofNat 39) = 2 :=
  ⟨by decide,
    ((extractIdFromLink_id_chars
      "https://drive.google.com/drive/folders/XY' or 'a' in parents").2.2.1
      sampleProvider "pdf" "XY" "pdf" (by decide)).1,
    ((extractIdFromLink_id_chars
      "https://drive.google.com/drive/folders/XY' or 'a' in parents").2.2.1
      sampleProvider "pdf" "XY" "pdf" (by decide)).2.2.2⟩

end Go3
